import Mathlib

/-!
Shallow embedding of the ledger-aggregation core of `src/Personalmanager.py`
(a Streamlit/pandas personal-finance dashboard), together with proofs of the
specification claims about it.

Modelling conventions:

* A pandas `DataFrame` row becomes a `Rec`; the data frame itself is a
  `List Rec` in row order.
* `Amount` is modelled as `Rat` (the source stores Python floats, but every
  claim is about exact grouping/summation structure, so exact rationals are
  the faithful abstraction of the arithmetic).
* `Date` is modelled as a `Nat` in `yyyymmdd` encoding; the order on those
  naturals agrees with chronological order, and the year-month of a record is
  `date / 100` (matching `dt.to_period('M')`).
* `Category` is an `Option String`: `pd.read_csv` parses an empty CSV cell as
  `NaN` (a missing value), which `groupby` silently drops, so missingness is
  semantically significant and is modelled as `none`.  An in-memory record
  created by the input form always has `some` category (possibly `some ""`).
  The other string columns are kept as plain `String`s: a missing value there
  behaves exactly like a string that is not a valid kind name, because those
  columns are only ever used through equality filters.
* pandas `groupby(...).sum()` sorts the (distinct, non-missing) group keys
  ascending; `sortedKeys` below reproduces that.
-/

/-- One ledger row: the columns `Date, Type, Category, Description, Amount,
Source` of the data frame. -/
structure Rec where
  date : Nat
  type : String
  category : Option String
  description : String
  amount : Rat
  source : String
  deriving DecidableEq

/-- One raw CSV row, all cells as the strings stored on disk except that date
and amount are kept pre-parsed (their parsing is irrelevant to every claim). -/
structure CsvRow where
  date : Nat
  type : String
  category : String
  description : String
  amount : Rat
  source : String
  deriving DecidableEq

/-- How `pd.read_csv` treats a text cell: an empty cell is a missing value
(`NaN`), any other content is kept verbatim. -/
def parseCell (s : String) : Option String :=
  if s = "" then none else some s

/-- Embedding of `load_data` (source lines 12–25): reads the stored rows back into the
in-memory data frame.  Dates were stored from `datetime` values and re-parsed
with `pd.to_datetime`, which round-trips; the category cell goes through the
CSV missing-value rule. -/
def load_data (rows : List CsvRow) : List Rec :=
  rows.map fun r =>
    { date := r.date
      type := r.type
      category := parseCell r.category
      description := r.description
      amount := r.amount
      source := r.source }

/-- The value of `df['Amount'].sum()` over a (filtered) frame: 0 on the empty frame. -/
def sumAmounts (df : List Rec) : Rat :=
  (df.map Rec.amount).sum

/-- Embedding of `calculate_net_worth` (source lines 72–76):
assets total minus liabilities total, each an equality filter on `Type`. -/
def calculate_net_worth (df : List Rec) : Rat :=
  sumAmounts (df.filter fun r => r.type = "Asset")
    - sumAmounts (df.filter fun r => r.type = "Liability")

/-- Embedding of `calculate_net_income` (source lines 79–90): restrict to Income/Expense
rows, apply the inclusive date filter only when BOTH bounds are truthy
(`if start_date and end_date:`), then sum per type and return
`(total_income, total_expenses, total_income - total_expenses)`. -/
def calculate_net_income (df : List Rec)
    (start_date end_date : Option Nat) : Rat × Rat × Rat :=
  let df₁ := df.filter fun r => r.type = "Income" ∨ r.type = "Expense"
  let df₂ := match start_date, end_date with
    | some s, some e => df₁.filter fun (r : Rec) => s ≤ r.date ∧ r.date ≤ e
    | _, _ => df₁
  let total_income := sumAmounts (df₂.filter fun r => r.type = "Income")
  let total_expenses := sumAmounts (df₂.filter fun r => r.type = "Expense")
  (total_income, total_expenses, total_income - total_expenses)

/-- Insert a key into an ascending list of distinct keys, keeping it ascending
and distinct.  Folding this over a list reproduces the sorted distinct key set
that pandas `groupby` iterates over. -/
def insortKey {α : Type} [LinearOrder α] (x : α) : List α → List α
  | [] => [x]
  | y :: ys =>
    if x < y then x :: y :: ys
    else if x = y then y :: ys
    else y :: insortKey x ys

/-- The ascending list of distinct elements of `l`: the group keys of a pandas
`groupby` over a column whose values (none missing) are `l`. -/
def sortedKeys {α : Type} [LinearOrder α] (l : List α) : List α :=
  l.foldr insortKey []

/-- The year-month bucket of a record: `df['Date'].dt.to_period('M')`. -/
def month (r : Rec) : Nat := r.date / 100

/-- Embedding of `monthly_summary` (source lines 114–119): keep Income/Expense rows, group
by (month, type) summing amounts, `unstack(fill_value=0)` (one column per type
VALUE PRESENT IN THE FILTERED DATA, missing combinations filled with 0), then
sort the month index ascending.  A bucket is rendered as the month key paired
with its row of per-type totals in the ascending column order used by pandas. -/
def monthly_summary (df : List Rec) : List (Nat × List (String × Rat)) :=
  let f := df.filter fun r => r.type = "Income" ∨ r.type = "Expense"
  let cols := sortedKeys (f.map Rec.type)
  (sortedKeys (f.map month)).map fun m =>
    (m, cols.map fun t =>
      (t, sumAmounts (f.filter fun r => month r = m ∧ r.type = t)))

/-- Embedding of `expense_summary` (source lines 134–136): keep Expense rows, group by
`Category` summing `Amount`.  `groupby` drops rows whose key is missing
(`NaN`), so only `some` categories generate groups. -/
def expense_summary (df : List Rec) : List (String × Rat) :=
  let f := df.filter fun r => r.type = "Expense"
  (sortedKeys (f.filterMap Rec.category)).map fun c =>
    (c, sumAmounts (f.filter fun r => r.category = some c))

/-- Embedding of `positions_summary` (source lines 149–151): keep Asset/Liability rows,
group by `Type` summing `Amount`. -/
def positions_summary (df : List Rec) : List (String × Rat) :=
  let f := df.filter fun r => r.type = "Asset" ∨ r.type = "Liability"
  (sortedKeys (f.map Rec.type)).map fun t =>
    (t, sumAmounts (f.filter fun r => r.type = t))

/-- A record whose kind lies in the closed enumeration of the spec. -/
def validKind (r : Rec) : Prop :=
  r.type = "Income" ∨ r.type = "Expense" ∨ r.type = "Asset" ∨ r.type = "Liability"

instance : DecidablePred validKind := fun r => by
  unfold validKind; infer_instance

example : calculate_net_worth [] = 0 := by
  simp [calculate_net_worth, sumAmounts]
example : calculate_net_income [] none none = (0, 0, 0) := by
  simp [calculate_net_income, sumAmounts]
example :
    calculate_net_worth
      [⟨20240201, "Asset", some "", "", 5000, "Savings"⟩,
       ⟨20240201, "Liability", some "", "", 1200, "Loan"⟩] = 3800 := by
  simp [calculate_net_worth, sumAmounts, List.filter_cons]
  norm_num
example :
    monthly_summary [⟨20240115, "Expense", some "Food", "", 50, "Cash"⟩]
      = [(202401, [("Expense", 50)])] := by
  simp [monthly_summary, sumAmounts, sortedKeys, insortKey, List.filter_cons,
    month]
example :
    expense_summary (load_data [⟨20240105, "Expense", "", "", 100, "Cash"⟩])
      = [] := by
  simp [expense_summary, load_data, parseCell, sortedKeys, List.filter_cons]

/-! ### Lemmas about sorted group keys -/

theorem sortedKeys_nil {α : Type} [LinearOrder α] :
    sortedKeys ([] : List α) = [] := rfl

theorem sortedKeys_cons {α : Type} [LinearOrder α] (y : α) (ys : List α) :
    sortedKeys (y :: ys) = insortKey y (sortedKeys ys) := rfl

theorem mem_insortKey {α : Type} [LinearOrder α] (a x : α) :
    ∀ l : List α, x ∈ insortKey a l ↔ x = a ∨ x ∈ l
  | [] => by simp [insortKey]
  | y :: ys => by
    by_cases h1 : a < y
    · simp only [insortKey, if_pos h1, List.mem_cons]
    · by_cases h2 : a = y
      · subst h2
        simp only [insortKey, if_neg h1, eq_self_iff_true, if_true, List.mem_cons]
        tauto
      · simp only [insortKey, if_neg h1, if_neg h2, List.mem_cons,
          mem_insortKey a x ys]
        tauto

theorem pairwise_insortKey {α : Type} [LinearOrder α] (a : α) :
    ∀ l : List α, List.Pairwise (· < ·) l →
      List.Pairwise (· < ·) (insortKey a l)
  | [], _ => by simp [insortKey]
  | y :: ys, h => by
    rcases List.pairwise_cons.mp h with ⟨hy, hys⟩
    by_cases h1 : a < y
    · simp only [insortKey, if_pos h1]
      refine List.pairwise_cons.mpr ⟨?_, h⟩
      intro b hb
      rcases List.mem_cons.mp hb with rfl | hb
      · exact h1
      · exact h1.trans (hy b hb)
    · by_cases h2 : a = y
      · subst h2
        simpa only [insortKey, if_neg h1, eq_self_iff_true, if_true] using h
      · have hya : y < a := by
          rcases lt_trichotomy a y with h3 | h3 | h3
          · exact absurd h3 h1
          · exact absurd h3 h2
          · exact h3
        simp only [insortKey, if_neg h1, if_neg h2]
        refine List.pairwise_cons.mpr ⟨?_, pairwise_insortKey a ys hys⟩
        intro b hb
        rcases (mem_insortKey a b ys).mp hb with rfl | hb
        · exact hya
        · exact hy b hb

theorem mem_sortedKeys {α : Type} [LinearOrder α] (x : α) :
    ∀ l : List α, x ∈ sortedKeys l ↔ x ∈ l
  | [] => by simp [sortedKeys_nil]
  | y :: ys => by
    rw [sortedKeys_cons, mem_insortKey, mem_sortedKeys x ys, List.mem_cons]

theorem pairwise_sortedKeys {α : Type} [LinearOrder α] :
    ∀ l : List α, List.Pairwise (· < ·) (sortedKeys l)
  | [] => by simp [sortedKeys_nil]
  | y :: ys => by
    rw [sortedKeys_cons]
    exact pairwise_insortKey y _ (pairwise_sortedKeys ys)

theorem nodup_sortedKeys {α : Type} [LinearOrder α] (l : List α) :
    (sortedKeys l).Nodup :=
  (pairwise_sortedKeys l).imp ne_of_lt

/-- Two strictly ascending lists with the same members coincide. -/
theorem pairwise_lt_ext {α : Type} [LinearOrder α] :
    ∀ l₁ l₂ : List α, List.Pairwise (· < ·) l₁ → List.Pairwise (· < ·) l₂ →
      (∀ x, x ∈ l₁ ↔ x ∈ l₂) → l₁ = l₂
  | [], [], _, _, _ => rfl
  | [], y :: ys, _, _, hm =>
      absurd ((hm y).mpr (List.mem_cons_self y ys)) (List.not_mem_nil y)
  | x :: xs, [], _, _, hm =>
      absurd ((hm x).mp (List.mem_cons_self x xs)) (List.not_mem_nil x)
  | x :: xs, y :: ys, h₁, h₂, hm => by
    rcases List.pairwise_cons.mp h₁ with ⟨hx, hxs⟩
    rcases List.pairwise_cons.mp h₂ with ⟨hy, hys⟩
    have hxy : x = y := by
      rcases List.mem_cons.mp ((hm x).mp (List.mem_cons_self x xs)) with h | h
      · exact h
      · rcases List.mem_cons.mp ((hm y).mpr (List.mem_cons_self y ys)) with h' | h'
        · exact h'.symm
        · exact absurd (hx y h') (asymm (hy x h))
    subst hxy
    have htail : ∀ z, z ∈ xs ↔ z ∈ ys := by
      intro z
      constructor
      · intro hz
        rcases List.mem_cons.mp ((hm z).mp (List.mem_cons_of_mem x hz)) with rfl | h
        · exact absurd (hx z hz) (lt_irrefl z)
        · exact h
      · intro hz
        rcases List.mem_cons.mp ((hm z).mpr (List.mem_cons_of_mem x hz)) with rfl | h
        · exact absurd (hy z hz) (lt_irrefl z)
        · exact h
    rw [pairwise_lt_ext xs ys hxs hys htail]

/-- The function `sortedKeys` only depends on the membership set of its input. -/
theorem sortedKeys_congr {α : Type} [LinearOrder α] {l l' : List α}
    (h : ∀ x, x ∈ l ↔ x ∈ l') : sortedKeys l = sortedKeys l' :=
  pairwise_lt_ext _ _ (pairwise_sortedKeys l) (pairwise_sortedKeys l')
    (fun x => by rw [mem_sortedKeys, mem_sortedKeys]; exact h x)

/-! ### Lemmas about filtered sums -/

/-- Splitting a filtered sum along a second (decidable) predicate. -/
theorem sum_map_filter_split {α : Type} (w : α → Rat) (p q : α → Prop)
    [DecidablePred p] [DecidablePred q] :
    ∀ l : List α,
      ((l.filter fun a => p a ∧ q a).map w).sum
          + ((l.filter fun a => p a ∧ ¬ q a).map w).sum
        = ((l.filter fun a => p a).map w).sum
  | [] => by simp
  | x :: xs => by
    by_cases hp : p x
    · by_cases hq : q x
      · simp only [List.filter_cons, decide_eq_true_eq, hp, hq, and_self,
          not_true, and_false, if_true, if_false, decide_True, decide_False,
          Bool.false_eq_true, List.map_cons, List.sum_cons]
        rw [← sum_map_filter_split w p q xs]
        ring
      · simp only [List.filter_cons, decide_eq_true_eq, hp, hq, and_true,
          and_false, not_false_iff, if_true, if_false, decide_True,
          decide_False, Bool.false_eq_true, List.map_cons, List.sum_cons]
        rw [← sum_map_filter_split w p q xs]
        ring
    · simp only [List.filter_cons, decide_eq_true_eq, hp, false_and, if_false,
        decide_False, Bool.false_eq_true, not_false_iff]
      exact sum_map_filter_split w p q xs

/-- A filter by a stronger predicate factors through a filter by a weaker
one. -/
theorem filter_filter_of_imp {α : Type} (p q : α → Prop) [DecidablePred p]
    [DecidablePred q] (h : ∀ a, p a → q a) :
    ∀ l : List α,
      l.filter (fun a => p a) = (l.filter fun a => q a).filter fun a => p a
  | [] => rfl
  | x :: xs => by
    by_cases hp : p x
    · simp only [List.filter_cons, decide_eq_true_eq, hp, h x hp, if_true,
        decide_True]
      rw [filter_filter_of_imp p q h xs]
    · by_cases hq : q x
      · simp only [List.filter_cons, decide_eq_true_eq, hp, hq, if_true,
          if_false, decide_True, decide_False]
        exact filter_filter_of_imp p q h xs
      · simp only [List.filter_cons, decide_eq_true_eq, hp, hq, if_false,
          decide_False]
        exact filter_filter_of_imp p q h xs

/-- Filters by propositionally equivalent predicates agree. -/
theorem filter_congr_prop {α : Type} (p q : α → Prop) [DecidablePred p]
    [DecidablePred q] (h : ∀ a, p a ↔ q a) :
    ∀ l : List α, l.filter (fun a => p a) = l.filter fun a => q a
  | [] => rfl
  | x :: xs => by
    by_cases hx : p x
    · simp only [List.filter_cons, decide_eq_true_eq, hx, (h x).mp hx, if_true,
        decide_True]
      rw [filter_congr_prop p q h xs]
    · have hqx : ¬ q x := fun hq => hx ((h x).mpr hq)
      simp only [List.filter_cons, decide_eq_true_eq, hx, hqx, if_false,
        decide_False, Bool.false_eq_true]
      exact filter_congr_prop p q h xs

/-- Two successive propositional filters collapse to their conjunction. -/
theorem filter_filter_prop {α : Type} (p q : α → Prop) [DecidablePred p]
    [DecidablePred q] :
    ∀ l : List α,
      (l.filter fun a => p a).filter (fun a => q a)
        = l.filter fun a => p a ∧ q a
  | [] => rfl
  | x :: xs => by
    by_cases hp : p x
    · by_cases hq : q x
      · simp only [List.filter_cons, decide_eq_true_eq, hp, hq, and_self,
          if_true, decide_True]
        rw [filter_filter_prop p q xs]
      · simp only [List.filter_cons, decide_eq_true_eq, hp, hq, and_false,
          if_true, if_false, decide_True, decide_False, Bool.false_eq_true]
        exact filter_filter_prop p q xs
    · simp only [List.filter_cons, decide_eq_true_eq, hp, false_and, if_false,
        decide_False, Bool.false_eq_true]
      exact filter_filter_prop p q xs

/-- Strengthening the filter can only decrease a sum of non-negative
weights. -/
theorem sum_map_filter_mono {α : Type} (w : α → Rat) (p q : α → Prop)
    [DecidablePred p] [DecidablePred q] (himp : ∀ a, p a → q a) :
    ∀ l : List α, (∀ a ∈ l, 0 ≤ w a) →
      ((l.filter fun a => p a).map w).sum
        ≤ ((l.filter fun a => q a).map w).sum
  | [], _ => le_refl _
  | x :: xs, h0 => by
    have hxs := sum_map_filter_mono w p q himp xs
      (fun a ha => h0 a (List.mem_cons_of_mem x ha))
    by_cases hp : p x
    · simp only [List.filter_cons, decide_eq_true_eq, hp, himp x hp, if_true,
        decide_True, List.map_cons, List.sum_cons]
      exact add_le_add_left hxs _
    · by_cases hq : q x
      · simp only [List.filter_cons, decide_eq_true_eq, hp, hq, if_true,
          if_false, decide_True, decide_False, List.map_cons, List.sum_cons]
        exact hxs.trans (le_add_of_nonneg_left (h0 x (List.mem_cons_self x xs)))
      · simp only [List.filter_cons, decide_eq_true_eq, hp, hq, if_false,
          decide_False]
        exact hxs

/-! ### Permutation and partition lemmas -/

theorem sortedKeys_perm {α : Type} [LinearOrder α] {l l' : List α}
    (h : l.Perm l') : sortedKeys l = sortedKeys l' :=
  sortedKeys_congr fun _ => h.mem_iff

theorem sortedKeys_eq_nil {α : Type} [LinearOrder α] {l : List α} :
    sortedKeys l = [] ↔ l = [] := by
  constructor
  · intro h
    cases l with
    | nil => rfl
    | cons x xs =>
      have hx : x ∈ sortedKeys (x :: xs) :=
        (mem_sortedKeys x (x :: xs)).mpr (List.mem_cons_self x xs)
      rw [h] at hx
      exact absurd hx (List.not_mem_nil x)
  · intro h; subst h; rfl

theorem sumAmounts_perm {l l' : List Rec} (h : l.Perm l') :
    sumAmounts l = sumAmounts l' :=
  (h.map Rec.amount).sum_eq

/-- Summing the per-key group totals over any duplicate-free list of keys that
covers every key occurring in `l` yields the total weight of the rows whose
key is present.  This is the abstract "grouping neither drops nor
double-counts" fact behind the pandas `groupby(...).sum()` calls. -/
theorem sum_groups_keys {α κ : Type} [DecidableEq κ] (w : α → Rat)
    (key : α → Option κ) :
    ∀ ks : List κ, ks.Nodup → ∀ l : List α,
      (∀ a ∈ l, ∀ c, key a = some c → c ∈ ks) →
      (ks.map fun c => ((l.filter fun a => key a = some c).map w).sum).sum
        = ((l.filter fun a => key a ≠ none).map w).sum
  | [], _, l, hcov => by
    have hnil : (l.filter fun a => key a ≠ none) = [] := by
      apply List.filter_eq_nil_iff.mpr
      intro a ha
      cases hk : key a with
      | none => simp [hk]
      | some c => exact absurd (hcov a ha c hk) (List.not_mem_nil c)
    rw [hnil]
    simp
  | k :: ks, hnd, l, hcov => by
    rcases List.nodup_cons.mp hnd with ⟨hk, hnd₂⟩
    have hstep :
        (ks.map fun c => ((l.filter fun a => key a = some c).map w).sum)
          = ks.map fun c =>
              (((l.filter fun a => ¬ key a = some k).filter
                  fun a => key a = some c).map w).sum := by
      apply List.map_congr_left
      intro c hc
      have hck : c ≠ k := fun hek => hk (hek ▸ hc)
      rw [filter_filter_prop, filter_congr_prop
        (fun a => key a = some c)
        (fun a => ¬ key a = some k ∧ key a = some c)
        (fun a => by
          constructor
          · intro h1
            refine ⟨?_, h1⟩
            intro h2
            rw [h1] at h2
            exact hck (Option.some_inj.mp h2)
          · exact fun h1 => h1.2) l]
    have hIH := sum_groups_keys w key ks hnd₂
      (l.filter fun a => ¬ key a = some k)
      (by
        intro a ha c hc
        have hmem := List.mem_filter.mp ha
        have hne : ¬ key a = some k := by
          simpa using hmem.2
        rcases List.mem_cons.mp (hcov a hmem.1 c hc) with rfl | h2
        · exact absurd hc hne
        · exact h2)
    have hsplit := sum_map_filter_split w
      (fun a => key a ≠ none) (fun a => key a = some k) l
    have h1 : (l.filter fun a => key a ≠ none ∧ key a = some k)
        = l.filter fun a => key a = some k :=
      filter_congr_prop _ _ (fun a => by
        constructor
        · intro h; exact h.2
        · intro h; exact ⟨by simp [h], h⟩) l
    have h2 : (l.filter fun a => key a ≠ none ∧ ¬ key a = some k)
        = (l.filter fun a => ¬ key a = some k).filter
            fun a => key a ≠ none := by
      rw [filter_filter_prop]
      exact filter_congr_prop _ _ (fun a => by tauto) l
    calc (((k :: ks).map fun c =>
            ((l.filter fun a => key a = some c).map w).sum).sum)
        = ((l.filter fun a => key a = some k).map w).sum
            + (ks.map fun c =>
                ((l.filter fun a => key a = some c).map w).sum).sum := by
          simp
      _ = ((l.filter fun a => key a ≠ none ∧ key a = some k).map w).sum
            + (((l.filter fun a => ¬ key a = some k).filter
                  fun a => key a ≠ none).map w).sum := by
          rw [h1, hstep, hIH]
      _ = ((l.filter fun a => key a ≠ none ∧ key a = some k).map w).sum
            + ((l.filter fun a => key a ≠ none ∧ ¬ key a = some k).map w).sum := by
          rw [h2]
      _ = ((l.filter fun a => key a ≠ none).map w).sum := hsplit

/-- Specialisation of `sum_groups_keys` to the sorted distinct keys actually
produced by a `groupby`. -/
theorem sum_groups {α κ : Type} [LinearOrder κ] (w : α → Rat)
    (key : α → Option κ) (l : List α) :
    ((sortedKeys (l.filterMap key)).map fun c =>
        ((l.filter fun a => key a = some c).map w).sum).sum
      = ((l.filter fun a => key a ≠ none).map w).sum := by
  apply sum_groups_keys w key _ (nodup_sortedKeys _) l
  intro a ha c hc
  exact (mem_sortedKeys c _).mpr (List.mem_filterMap.mpr ⟨a, ha, hc⟩)

/-! ### Characterisations of `calculate_net_income` -/

theorem net_income_fst_eq (df : List Rec) (s e : Nat) :
    (calculate_net_income df (some s) (some e)).1
      = sumAmounts (df.filter fun r =>
          r.type = "Income" ∧ s ≤ r.date ∧ r.date ≤ e) := by
  simp only [calculate_net_income]
  rw [filter_filter_prop, filter_filter_prop]
  unfold sumAmounts
  rw [filter_congr_prop
    (fun r => (r.type = "Income" ∨ r.type = "Expense")
        ∧ (s ≤ r.date ∧ r.date ≤ e) ∧ r.type = "Income")
    (fun r => r.type = "Income" ∧ s ≤ r.date ∧ r.date ≤ e)
    (fun r => by tauto) df]

theorem net_income_snd_eq (df : List Rec) (s e : Nat) :
    (calculate_net_income df (some s) (some e)).2.1
      = sumAmounts (df.filter fun r =>
          r.type = "Expense" ∧ s ≤ r.date ∧ r.date ≤ e) := by
  simp only [calculate_net_income]
  rw [filter_filter_prop, filter_filter_prop]
  unfold sumAmounts
  rw [filter_congr_prop
    (fun r => (r.type = "Income" ∨ r.type = "Expense")
        ∧ (s ≤ r.date ∧ r.date ≤ e) ∧ r.type = "Expense")
    (fun r => r.type = "Expense" ∧ s ≤ r.date ∧ r.date ≤ e)
    (fun r => by tauto) df]

theorem net_income_all_fst_eq (df : List Rec) :
    (calculate_net_income df none none).1
      = sumAmounts (df.filter fun r => r.type = "Income") := by
  simp only [calculate_net_income]
  rw [filter_filter_prop]
  unfold sumAmounts
  rw [filter_congr_prop
    (fun r => (r.type = "Income" ∨ r.type = "Expense") ∧ r.type = "Income")
    (fun r => r.type = "Income")
    (fun r => by tauto) df]

theorem net_income_all_snd_eq (df : List Rec) :
    (calculate_net_income df none none).2.1
      = sumAmounts (df.filter fun r => r.type = "Expense") := by
  simp only [calculate_net_income]
  rw [filter_filter_prop]
  unfold sumAmounts
  rw [filter_congr_prop
    (fun r => (r.type = "Income" ∨ r.type = "Expense") ∧ r.type = "Expense")
    (fun r => r.type = "Expense")
    (fun r => by tauto) df]

theorem net_income_net_eq (df : List Rec) (s e : Option Nat) :
    (calculate_net_income df s e).2.2
      = (calculate_net_income df s e).1 - (calculate_net_income df s e).2.1 := by
  simp only [calculate_net_income]

/-! ### Claim theorems -/

/-- C5: with both bounds provided, net income restricts to Income/Expense
records whose date lies inclusively within `[start, end]`, returns
`net = totalIncome - totalExpense`, and an inverted range (`start > end`)
yields `(0, 0, 0)` instead of crashing or inverting the filter. -/
theorem C5_net_income_range (df : List Rec) (s e : Nat) :
    (calculate_net_income df (some s) (some e)).1
        = sumAmounts (df.filter fun r =>
            r.type = "Income" ∧ s ≤ r.date ∧ r.date ≤ e)
      ∧ (calculate_net_income df (some s) (some e)).2.1
        = sumAmounts (df.filter fun r =>
            r.type = "Expense" ∧ s ≤ r.date ∧ r.date ≤ e)
      ∧ (calculate_net_income df (some s) (some e)).2.2
        = (calculate_net_income df (some s) (some e)).1
          - (calculate_net_income df (some s) (some e)).2.1
      ∧ (e < s → calculate_net_income df (some s) (some e) = (0, 0, 0)) := by
  refine ⟨net_income_fst_eq df s e, net_income_snd_eq df s e,
    net_income_net_eq df (some s) (some e), ?_⟩
  intro hlt
  have h0 : ((df.filter fun r => r.type = "Income" ∨ r.type = "Expense").filter
      fun (r : Rec) => s ≤ r.date ∧ r.date ≤ e) = [] := by
    apply List.filter_eq_nil_iff.mpr
    intro a _
    simp only [decide_eq_true_eq]
    rintro ⟨h1, h2⟩
    exact absurd (h1.trans h2) (not_le.mpr hlt)
  simp only [calculate_net_income]
  rw [h0]
  simp [sumAmounts]

theorem C5_net_income_range_witness :
    calculate_net_income
      [⟨20240105, "Income", some "Salary", "", 1000, "Checking"⟩]
      (some 20240201) (some 20240101) = (0, 0, 0) :=
  (C5_net_income_range
    [⟨20240105, "Income", some "Salary", "", 1000, "Checking"⟩]
    20240201 20240101).2.2.2 (by norm_num)

/-- C6: net worth is the Asset total minus the Liability total, is 0 on the
empty ledger, can be negative, and does not depend on record order. -/
theorem C6_net_worth :
    calculate_net_worth [] = 0
      ∧ (∀ df : List Rec, calculate_net_worth df
          = sumAmounts (df.filter fun r => r.type = "Asset")
            - sumAmounts (df.filter fun r => r.type = "Liability"))
      ∧ (∃ df : List Rec, calculate_net_worth df < 0)
      ∧ ∀ df df' : List Rec, df.Perm df' →
          calculate_net_worth df = calculate_net_worth df' := by
  refine ⟨by simp [calculate_net_worth, sumAmounts], fun df => rfl, ?_, ?_⟩
  · refine ⟨[⟨20240101, "Liability", some "", "", 1, "Loan"⟩], ?_⟩
    simp [calculate_net_worth, sumAmounts, List.filter_cons]
  · intro df df' h
    unfold calculate_net_worth
    rw [sumAmounts_perm (h.filter _), sumAmounts_perm (h.filter _)]

theorem C6_net_worth_witness :
    calculate_net_worth
        [⟨20240201, "Asset", some "", "", 5000, "Savings"⟩,
         ⟨20240201, "Liability", some "", "", 1200, "Loan"⟩]
      = calculate_net_worth
        [⟨20240201, "Liability", some "", "", 1200, "Loan"⟩,
         ⟨20240201, "Asset", some "", "", 5000, "Savings"⟩] :=
  C6_net_worth.2.2.2
    [⟨20240201, "Asset", some "", "", 5000, "Savings"⟩,
     ⟨20240201, "Liability", some "", "", 1200, "Loan"⟩]
    [⟨20240201, "Liability", some "", "", 1200, "Loan"⟩,
     ⟨20240201, "Asset", some "", "", 5000, "Savings"⟩]
    (List.Perm.swap (⟨20240201, "Liability", some "", "", 1200, "Loan"⟩ : Rec)
      (⟨20240201, "Asset", some "", "", 5000, "Savings"⟩ : Rec) [])

/-- C7: over a ledger of non-negative amounts, shrinking the date range never
increases the income total or the expense total of `calculate_net_income`. -/
theorem C7_net_income_monotone (df : List Rec) (s e s' e' : Nat)
    (hnn : ∀ r ∈ df, (0 : Rat) ≤ r.amount) (hs : s ≤ s') (he : e' ≤ e) :
    (calculate_net_income df (some s') (some e')).1
        ≤ (calculate_net_income df (some s) (some e)).1
      ∧ (calculate_net_income df (some s') (some e')).2.1
        ≤ (calculate_net_income df (some s) (some e)).2.1 := by
  constructor
  · rw [net_income_fst_eq, net_income_fst_eq]
    exact sum_map_filter_mono Rec.amount _ _
      (fun r hr => ⟨hr.1, hs.trans hr.2.1, hr.2.2.trans he⟩) df hnn
  · rw [net_income_snd_eq, net_income_snd_eq]
    exact sum_map_filter_mono Rec.amount _ _
      (fun r hr => ⟨hr.1, hs.trans hr.2.1, hr.2.2.trans he⟩) df hnn

theorem C7_net_income_monotone_witness :
    (calculate_net_income
        [⟨20240105, "Income", some "Salary", "", 1000, "Checking"⟩,
         ⟨20240110, "Expense", some "Rent", "", 400, "Checking"⟩]
        (some 20240102) (some 20240110)).1
      ≤ (calculate_net_income
        [⟨20240105, "Income", some "Salary", "", 1000, "Checking"⟩,
         ⟨20240110, "Expense", some "Rent", "", 400, "Checking"⟩]
        (some 20240101) (some 20240131)).1 :=
  (C7_net_income_monotone
    [⟨20240105, "Income", some "Salary", "", 1000, "Checking"⟩,
     ⟨20240110, "Expense", some "Rent", "", 400, "Checking"⟩]
    20240101 20240131 20240102 20240110
    (by
      intro r hr
      rcases List.mem_cons.mp hr with rfl | hr
      · norm_num
      · rcases List.mem_cons.mp hr with rfl | hr
        · norm_num
        · exact absurd hr (List.not_mem_nil r))
    (by norm_num) (by norm_num)).1

/-- C9: every aggregation returns its identity value on the empty ledger:
0 for net worth, (0, 0, 0) for net income with no range, and empty
sequence/mappings for the three groupings. -/
theorem C9_empty_ledger :
    calculate_net_worth [] = 0
      ∧ calculate_net_income [] none none = (0, 0, 0)
      ∧ monthly_summary [] = []
      ∧ expense_summary [] = []
      ∧ positions_summary [] = [] := by
  refine ⟨?_, ?_, ?_, ?_, ?_⟩ <;>
    simp [calculate_net_worth, calculate_net_income, monthly_summary,
      expense_summary, positions_summary, sumAmounts, sortedKeys]

/-- C10: when exactly one of the two bounds is supplied, the Python guard
`if start_date and end_date:` is false, so no date filtering happens at all
and the result equals the all-time computation. -/
theorem C10_single_bound_ignored (df : List Rec) (s e : Nat) :
    calculate_net_income df (some s) none = calculate_net_income df none none
      ∧ calculate_net_income df none (some e)
          = calculate_net_income df none none :=
  ⟨rfl, rfl⟩

/-- C1 counterexample: on a ledger holding a record of kind `"Investment"`
(outside the closed enumeration) and an Asset record with a negative amount,
every aggregation computes a normal value instead of raising an
`InvalidRecord` error: the unknown kind is silently dropped from every
aggregate, and the negative amount is summed as-is into net worth and the
position breakdown. -/
theorem C1_counterexample :
    calculate_net_worth
        [⟨20240101, "Investment", some "Brokerage", "", 500, "Investment"⟩,
         ⟨20240102, "Asset", some "", "", -3, "Cash"⟩] = -3
      ∧ calculate_net_income
          [⟨20240101, "Investment", some "Brokerage", "", 500, "Investment"⟩,
           ⟨20240102, "Asset", some "", "", -3, "Cash"⟩] none none = (0, 0, 0)
      ∧ monthly_summary
          [⟨20240101, "Investment", some "Brokerage", "", 500, "Investment"⟩,
           ⟨20240102, "Asset", some "", "", -3, "Cash"⟩] = []
      ∧ expense_summary
          [⟨20240101, "Investment", some "Brokerage", "", 500, "Investment"⟩,
           ⟨20240102, "Asset", some "", "", -3, "Cash"⟩] = []
      ∧ positions_summary
          [⟨20240101, "Investment", some "Brokerage", "", 500, "Investment"⟩,
           ⟨20240102, "Asset", some "", "", -3, "Cash"⟩] = [("Asset", -3)] := by
  refine ⟨?_, ?_, ?_, ?_, ?_⟩ <;>
    simp [calculate_net_worth, calculate_net_income, monthly_summary,
      expense_summary, positions_summary, sumAmounts, sortedKeys, insortKey,
      List.filter_cons, month]

/-- C1 (amended): the aggregations perform no validation at all — a record
whose kind is outside the closed enumeration is silently excluded from every
aggregate (each aggregation filters on the kinds it uses before computing
anything), no error is ever raised, and amounts are never sign-checked. -/
theorem C1_no_validation (df : List Rec) (s e : Option Nat) :
    calculate_net_worth df
        = calculate_net_worth (df.filter fun r => validKind r)
      ∧ calculate_net_income df s e
          = calculate_net_income (df.filter fun r => validKind r) s e
      ∧ monthly_summary df
          = monthly_summary (df.filter fun r => validKind r)
      ∧ expense_summary df
          = expense_summary (df.filter fun r => validKind r)
      ∧ positions_summary df
          = positions_summary (df.filter fun r => validKind r) := by
  have hIE : (df.filter fun r => r.type = "Income" ∨ r.type = "Expense")
      = (df.filter fun r => validKind r).filter
          fun r => r.type = "Income" ∨ r.type = "Expense" :=
    filter_filter_of_imp _ _ (fun a ha => by unfold validKind; tauto) df
  refine ⟨?_, ?_, ?_, ?_, ?_⟩
  · unfold calculate_net_worth
    rw [filter_filter_of_imp (fun r => r.type = "Asset")
        (fun r => validKind r) (fun a ha => by unfold validKind; tauto) df,
      filter_filter_of_imp (fun r => r.type = "Liability")
        (fun r => validKind r) (fun a ha => by unfold validKind; tauto) df]
  · rcases s with _ | s <;> rcases e with _ | e <;>
      (simp only [calculate_net_income]; rw [hIE])
  · simp only [monthly_summary]
    rw [hIE]
  · simp only [expense_summary]
    rw [filter_filter_of_imp (fun r => r.type = "Expense")
      (fun r => validKind r) (fun a ha => by unfold validKind; tauto) df]
  · simp only [positions_summary]
    rw [filter_filter_of_imp (fun r => r.type = "Asset" ∨ r.type = "Liability")
      (fun r => validKind r) (fun a ha => by unfold validKind; tauto) df]

/-- C8: the position breakdown has an entry for kind `t` iff the ledger holds
at least one Asset/Liability record of that kind (a kind with no records is
omitted rather than reported as 0), and the breakdown never has more than two
entries. -/
theorem C8_positions_entries (df : List Rec) (t : String) :
    ((∃ a, (t, a) ∈ positions_summary df)
        ↔ ∃ r ∈ df, (r.type = "Asset" ∨ r.type = "Liability") ∧ r.type = t)
      ∧ (positions_summary df).length ≤ 2 := by
  constructor
  · simp only [positions_summary]
    constructor
    · rintro ⟨a, ha⟩
      rcases List.mem_map.mp ha with ⟨t', ht', heq⟩
      obtain ⟨rfl, -⟩ : t' = t ∧ t' = t' := ⟨congrArg Prod.fst heq, rfl⟩
      have ht2 := (mem_sortedKeys t' _).mp ht'
      rcases List.mem_map.mp ht2 with ⟨r, hr, hrt⟩
      have hr2 := List.mem_filter.mp hr
      refine ⟨r, hr2.1, ?_, hrt⟩
      simpa using hr2.2
    · rintro ⟨r, hrdf, hAL, hrt⟩
      have hrf : r ∈ df.filter
          fun r => r.type = "Asset" ∨ r.type = "Liability" :=
        List.mem_filter.mpr ⟨hrdf, by simpa using hAL⟩
      have hkeys : t ∈ sortedKeys ((df.filter fun r =>
          r.type = "Asset" ∨ r.type = "Liability").map Rec.type) :=
        (mem_sortedKeys t _).mpr (List.mem_map.mpr ⟨r, hrf, hrt⟩)
      exact ⟨_, List.mem_map.mpr ⟨t, hkeys, rfl⟩⟩
  · simp only [positions_summary, List.length_map]
    have hsub : sortedKeys ((df.filter fun r =>
        r.type = "Asset" ∨ r.type = "Liability").map Rec.type)
        ⊆ ["Asset", "Liability"] := by
      intro x hx
      rcases List.mem_map.mp ((mem_sortedKeys x _).mp hx) with ⟨r, hr, hrt⟩
      have hAL := List.mem_filter.mp hr |>.2
      simp only [decide_eq_true_eq] at hAL
      rcases hAL with h | h
      · exact List.mem_cons.mpr (Or.inl (hrt ▸ h))
      · exact List.mem_cons.mpr (Or.inr (List.mem_cons.mpr
          (Or.inl (hrt ▸ h))))
    have := (List.subperm_of_subset (nodup_sortedKeys _) hsub).length_le
    simpa using this

/-- C2 counterexample: an Expense whose stored category cell is the empty
string is parsed as a missing value by `pd.read_csv` and then silently
dropped by `groupby('Category')` — on the loaded ledger the 100-unit record
forms no group at all (it is dropped, not kept as an empty-string group),
and only the "Rent" group remains. -/
theorem C2_counterexample :
    expense_summary
        (load_data [⟨20240105, "Expense", "", "", 100, "Cash"⟩,
                    ⟨20240106, "Expense", "Rent", "", 40, "Cash"⟩])
      = [("Rent", 40)] := by
  simp [expense_summary, load_data, parseCell, sortedKeys, insortKey,
    List.filter_cons, sumAmounts]

/-- C2 (amended): the expense breakdown groups Expense records by exact,
case-sensitive category string — `(c, v)` is an entry iff some Expense record
carries exactly category `c` and `v` is the sum over exactly those records —
but a record whose category is missing (as produced by loading an
empty-string category cell from storage) belongs to no group at all: the
breakdown is computed solely from records with a present category. -/
theorem C2_expense_grouping (df : List Rec) (c : String) (v : Rat) :
    ((c, v) ∈ expense_summary df
        ↔ (∃ r ∈ df, r.type = "Expense" ∧ r.category = some c)
          ∧ v = sumAmounts (df.filter fun r =>
              r.type = "Expense" ∧ r.category = some c))
      ∧ expense_summary df
          = expense_summary (df.filter fun r => r.category ≠ none) := by
  have hcollapse : ∀ c' : String,
      ((df.filter fun r => r.type = "Expense").filter
          fun r => r.category = some c')
        = df.filter fun r => r.type = "Expense" ∧ r.category = some c' :=
    fun c' => filter_filter_prop _ _ df
  constructor
  · constructor
    · intro hmem
      simp only [expense_summary] at hmem
      rcases List.mem_map.mp hmem with ⟨c', hc', heq⟩
      have hc1 : c' = c := congrArg Prod.fst heq
      subst hc1
      have hv : v = sumAmounts ((df.filter fun r => r.type = "Expense").filter
          fun r => r.category = some c') := (congrArg Prod.snd heq).symm
      rcases List.mem_filterMap.mp ((mem_sortedKeys c' _).mp hc')
        with ⟨r, hrf, hrc⟩
      have hr2 := List.mem_filter.mp hrf
      refine ⟨⟨r, hr2.1, by simpa using hr2.2, hrc⟩, ?_⟩
      rw [hv, hcollapse]
    · rintro ⟨⟨r, hrdf, hrE, hrc⟩, hv⟩
      simp only [expense_summary]
      have hrf : r ∈ df.filter fun r => r.type = "Expense" :=
        List.mem_filter.mpr ⟨hrdf, by simpa using hrE⟩
      have hkey : c ∈ sortedKeys ((df.filter fun r =>
          r.type = "Expense").filterMap Rec.category) :=
        (mem_sortedKeys c _).mpr (List.mem_filterMap.mpr ⟨r, hrf, hrc⟩)
      refine List.mem_map.mpr ⟨c, hkey, ?_⟩
      rw [hcollapse c, hv]
  · have hkeys : sortedKeys ((df.filter fun r =>
        r.type = "Expense").filterMap Rec.category)
        = sortedKeys (((df.filter fun r => r.category ≠ none).filter
            fun r => r.type = "Expense").filterMap Rec.category) := by
      apply sortedKeys_congr
      intro x
      constructor
      · intro hx
        rcases List.mem_filterMap.mp hx with ⟨r, hrf, hrc⟩
        have hr2 := List.mem_filter.mp hrf
        refine List.mem_filterMap.mpr ⟨r, List.mem_filter.mpr
          ⟨List.mem_filter.mpr ⟨hr2.1, by simp [hrc]⟩, hr2.2⟩, hrc⟩
      · intro hx
        rcases List.mem_filterMap.mp hx with ⟨r, hrf, hrc⟩
        have hr2 := List.mem_filter.mp hrf
        have hr3 := List.mem_filter.mp hr2.1
        exact List.mem_filterMap.mpr
          ⟨r, List.mem_filter.mpr ⟨hr3.1, hr2.2⟩, hrc⟩
    simp only [expense_summary]
    rw [← hkeys]
    apply List.map_congr_left
    intro c' hc'
    have h1 : (((df.filter fun r => r.category ≠ none).filter
        fun r => r.type = "Expense").filter fun r => r.category = some c')
        = df.filter fun r =>
            r.category ≠ none ∧ r.type = "Expense" ∧ r.category = some c' := by
      rw [filter_filter_prop, filter_filter_prop]
    rw [hcollapse c', h1]
    refine congrArg (fun l => (c', sumAmounts l)) ?_
    apply filter_congr_prop
    intro a
    constructor
    · rintro ⟨hE, hc2⟩
      exact ⟨by simp [hc2], hE, hc2⟩
    · rintro ⟨-, hE, hc2⟩
      exact ⟨hE, hc2⟩

theorem filterMap_some_map {α β : Type} (f : α → β) :
    ∀ l : List α, (l.filterMap fun a => some (f a)) = l.map f
  | [] => rfl
  | x :: xs => by
    simp only [List.filterMap_cons, List.map_cons]
    rw [filterMap_some_map f xs]

theorem map_snd_pair_sum {κ : Type} (g : κ → Rat) :
    ∀ ks : List κ, ((ks.map fun c => (c, g c)).map Prod.snd).sum
      = (ks.map g).sum
  | [] => rfl
  | k :: ks => by
    simp only [List.map_cons, List.sum_cons]
    rw [map_snd_pair_sum g ks]

/-- C4 counterexample: on the ledger loaded from a stored Expense row whose
category cell is empty, the expense-breakdown group totals sum to 0 while the
unconditional sum over all Expense records is 100 — the grouping dropped the
missing-category record. -/
theorem C4_counterexample :
    ((expense_summary
        (load_data [⟨20240105, "Expense", "", "", 100, "Cash"⟩])).map
          Prod.snd).sum = 0
      ∧ sumAmounts ((load_data
          [⟨20240105, "Expense", "", "", 100, "Cash"⟩]).filter
            fun r => r.type = "Expense") = 100 := by
  constructor <;>
    simp [expense_summary, load_data, parseCell, sortedKeys,
      List.filter_cons, sumAmounts]

/-- C4 (amended): the position-breakdown group totals always sum to the
unconditional total over all Asset and Liability records; the
expense-breakdown group totals sum to the unconditional total over the
Expense records whose category is present — an Expense record with a missing
category (loaded from an empty stored cell) contributes to no group. -/
theorem C4_group_totals (df : List Rec) :
    ((positions_summary df).map Prod.snd).sum
        = sumAmounts (df.filter fun r =>
            r.type = "Asset" ∨ r.type = "Liability")
      ∧ ((expense_summary df).map Prod.snd).sum
        = sumAmounts (df.filter fun r =>
            r.type = "Expense" ∧ r.category ≠ none) := by
  constructor
  · have hsg := sum_groups_keys Rec.amount (fun r : Rec => some r.type)
      (sortedKeys ((df.filter fun r =>
        r.type = "Asset" ∨ r.type = "Liability").map Rec.type))
      (nodup_sortedKeys _)
      (df.filter fun r => r.type = "Asset" ∨ r.type = "Liability")
      (by
        intro a ha c hc
        have hac : a.type = c := Option.some_inj.mp hc
        exact (mem_sortedKeys c _).mpr (List.mem_map.mpr ⟨a, ha, hac⟩))
    have hself : ((df.filter fun r =>
        r.type = "Asset" ∨ r.type = "Liability").filter
          fun a => some a.type ≠ none)
        = df.filter fun r => r.type = "Asset" ∨ r.type = "Liability" :=
      List.filter_eq_self.mpr (fun a _ => by simp)
    rw [hself] at hsg
    have hfun : ∀ t ∈ sortedKeys ((df.filter fun r =>
        r.type = "Asset" ∨ r.type = "Liability").map Rec.type),
        (((df.filter fun r => r.type = "Asset" ∨ r.type = "Liability").filter
            fun a => some a.type = some t).map Rec.amount).sum
          = sumAmounts ((df.filter fun r =>
              r.type = "Asset" ∨ r.type = "Liability").filter
                fun r => r.type = t) := by
      intro t _
      unfold sumAmounts
      exact congrArg (fun l => (l.map Rec.amount).sum)
        (filter_congr_prop (fun a : Rec => some a.type = some t)
          (fun a : Rec => a.type = t) (fun a => by simp) _)
    rw [List.map_congr_left hfun] at hsg
    simp only [positions_summary]
    rw [map_snd_pair_sum]
    exact hsg
  · have hsg := sum_groups_keys Rec.amount Rec.category
      (sortedKeys ((df.filter fun r =>
        r.type = "Expense").filterMap Rec.category))
      (nodup_sortedKeys _)
      (df.filter fun r => r.type = "Expense")
      (by
        intro a ha c hc
        exact (mem_sortedKeys c _).mpr (List.mem_filterMap.mpr ⟨a, ha, hc⟩))
    have hne : ((df.filter fun r => r.type = "Expense").filter
        fun a => a.category ≠ none)
        = df.filter fun r => r.type = "Expense" ∧ r.category ≠ none :=
      filter_filter_prop (fun r : Rec => r.type = "Expense")
        (fun r : Rec => r.category ≠ none) df
    rw [hne] at hsg
    simp only [expense_summary]
    rw [map_snd_pair_sum]
    exact hsg

/-- C3 counterexample: with a single Expense record the only bucket of the
monthly summary has no Income entry at all — `unstack(fill_value=0)` creates
a column only for the kinds present somewhere in the filtered data, so a kind
with no records anywhere is absent rather than reported as 0. -/
theorem C3_counterexample :
    monthly_summary [⟨20240115, "Expense", some "Food", "", 50, "Cash"⟩]
        = [(202401, [("Expense", 50)])]
      ∧ ∀ row ∈ monthly_summary
          [⟨20240115, "Expense", some "Food", "", 50, "Cash"⟩],
          ∀ a : Rat, ("Income", a) ∉ row.2 := by
  have h : monthly_summary [⟨20240115, "Expense", some "Food", "", 50, "Cash"⟩]
      = [(202401, [("Expense", 50)])] := by
    simp [monthly_summary, sumAmounts, sortedKeys, insortKey,
      List.filter_cons, month]
  refine ⟨h, ?_⟩
  rw [h]
  rintro row hrow a
  simp only [List.mem_singleton] at hrow
  subst hrow
  simp

/-- C3 (amended): the monthly cash-flow buckets are keyed by year-month in
strictly ascending chronological order, are independent of the input order of
records, and are empty exactly when there are no Income/Expense records; each
bucket carries one entry per kind occurring somewhere in the filtered data
(a kind missing from one bucket but present in another is reported as 0,
while a kind with no records at all is absent from every bucket), and every
entry is the sum of the amounts of that month and kind. -/
theorem C3_monthly_cash_flow (df df' : List Rec) :
    List.Pairwise (· < ·) ((monthly_summary df).map Prod.fst)
      ∧ (df.Perm df' → monthly_summary df = monthly_summary df')
      ∧ (monthly_summary df = []
          ↔ (df.filter fun r => r.type = "Income" ∨ r.type = "Expense") = [])
      ∧ ∀ m row, (m, row) ∈ monthly_summary df →
          (∀ t a, (t, a) ∈ row →
            a = sumAmounts (df.filter fun r =>
              (r.type = "Income" ∨ r.type = "Expense")
                ∧ month r = m ∧ r.type = t))
          ∧ ∀ t : String, (∃ a, (t, a) ∈ row)
              ↔ ∃ r ∈ df, (r.type = "Income" ∨ r.type = "Expense")
                  ∧ r.type = t := by
  refine ⟨?_, ?_, ?_, ?_⟩
  · have hfst : (monthly_summary df).map Prod.fst
        = sortedKeys ((df.filter fun r =>
            r.type = "Income" ∨ r.type = "Expense").map month) := by
      simp only [monthly_summary, List.map_map]
      exact (List.map_congr_left fun m _ => rfl).trans (List.map_id _)
    rw [hfst]
    exact pairwise_sortedKeys _
  · intro h
    have hf : (df.filter fun r => r.type = "Income" ∨ r.type = "Expense").Perm
        (df'.filter fun r => r.type = "Income" ∨ r.type = "Expense") :=
      h.filter _
    have hm : sortedKeys ((df.filter fun r =>
        r.type = "Income" ∨ r.type = "Expense").map month)
        = sortedKeys ((df'.filter fun r =>
            r.type = "Income" ∨ r.type = "Expense").map month) :=
      sortedKeys_perm (hf.map month)
    have hc : sortedKeys ((df.filter fun r =>
        r.type = "Income" ∨ r.type = "Expense").map Rec.type)
        = sortedKeys ((df'.filter fun r =>
            r.type = "Income" ∨ r.type = "Expense").map Rec.type) :=
      sortedKeys_perm (hf.map Rec.type)
    simp only [monthly_summary]
    rw [← hm, ← hc]
    apply List.map_congr_left
    intro m _
    refine congrArg (fun l => (m, l)) ?_
    apply List.map_congr_left
    intro t _
    refine congrArg (fun v => (t, v)) ?_
    exact sumAmounts_perm (hf.filter _)
  · simp only [monthly_summary]
    constructor
    · intro h
      exact List.map_eq_nil_iff.mp
        (sortedKeys_eq_nil.mp (List.map_eq_nil_iff.mp h))
    · intro h
      rw [h]
      simp [sortedKeys_nil]
  · intro m row hmr
    simp only [monthly_summary] at hmr
    rcases List.mem_map.mp hmr with ⟨m', hm', heq⟩
    have hm2 : m' = m := congrArg Prod.fst heq
    subst hm2
    have hrow : row = (sortedKeys ((df.filter fun r =>
        r.type = "Income" ∨ r.type = "Expense").map Rec.type)).map
          fun t => (t, sumAmounts ((df.filter fun r =>
            r.type = "Income" ∨ r.type = "Expense").filter
              fun r => month r = m' ∧ r.type = t)) :=
      (congrArg Prod.snd heq).symm
    constructor
    · intro t a hta
      rw [hrow] at hta
      rcases List.mem_map.mp hta with ⟨t', ht', heq2⟩
      have ht2 : t' = t := congrArg Prod.fst heq2
      subst ht2
      have ha : a = sumAmounts ((df.filter fun r =>
          r.type = "Income" ∨ r.type = "Expense").filter
            fun r => month r = m' ∧ r.type = t') :=
        (congrArg Prod.snd heq2).symm
      rw [ha]
      unfold sumAmounts
      exact congrArg (fun l => (l.map Rec.amount).sum)
        (filter_filter_prop (fun r : Rec =>
          r.type = "Income" ∨ r.type = "Expense")
          (fun r : Rec => month r = m' ∧ r.type = t') df)
    · intro t
      constructor
      · rintro ⟨a, hta⟩
        rw [hrow] at hta
        rcases List.mem_map.mp hta with ⟨t', ht', heq2⟩
        have ht2 : t' = t := congrArg Prod.fst heq2
        subst ht2
        rcases List.mem_map.mp ((mem_sortedKeys t' _).mp ht')
          with ⟨r, hrf, hrt⟩
        have hr2 := List.mem_filter.mp hrf
        exact ⟨r, hr2.1, by simpa using hr2.2, hrt⟩
      · rintro ⟨r, hrdf, hIE, hrt⟩
        have hrf : r ∈ df.filter fun r =>
            r.type = "Income" ∨ r.type = "Expense" :=
          List.mem_filter.mpr ⟨hrdf, by simpa using hIE⟩
        have ht : t ∈ sortedKeys ((df.filter fun r =>
            r.type = "Income" ∨ r.type = "Expense").map Rec.type) :=
          (mem_sortedKeys t _).mpr (List.mem_map.mpr ⟨r, hrf, hrt⟩)
        rw [hrow]
        exact ⟨_, List.mem_map.mpr ⟨t, ht, rfl⟩⟩

theorem C3_monthly_cash_flow_witness :
    monthly_summary
        [⟨20240105, "Income", some "Salary", "", 1000, "Checking"⟩,
         ⟨20240210, "Expense", some "Rent", "", 400, "Checking"⟩]
      = monthly_summary
        [⟨20240210, "Expense", some "Rent", "", 400, "Checking"⟩,
         ⟨20240105, "Income", some "Salary", "", 1000, "Checking"⟩] :=
  (C3_monthly_cash_flow
    [⟨20240105, "Income", some "Salary", "", 1000, "Checking"⟩,
     ⟨20240210, "Expense", some "Rent", "", 400, "Checking"⟩]
    [⟨20240210, "Expense", some "Rent", "", 400, "Checking"⟩,
     ⟨20240105, "Income", some "Salary", "", 1000, "Checking"⟩]).2.1
    (List.Perm.swap (⟨20240210, "Expense", some "Rent", "", 400, "Checking"⟩ : Rec)
      (⟨20240105, "Income", some "Salary", "", 1000, "Checking"⟩ : Rec) [])
